import Mathlib

/-!
# Verification of papi-polkadot-populate

Shallow embedding of the batching / validator-assignment / scanning /
transaction-wait logic of the `papi-polkadot-populate` CLI
(`src/solo-nominators.ts`, `src/block-limits.ts`, `index.ts`), together with
theorems settling the specification claims about that logic.

Conventions:
- bigint amounts are modelled as `Nat` (all amounts in the tool are
  non-negative and bigint division truncates exactly like `Nat` division);
- JavaScript `Map` tables are modelled as association lists in insertion
  order (with a last-write-wins lookup where the code reads the map back);
- asynchronous waits are modelled by the decision function the subscription
  callbacks implement, applied to the first decisive signal.
-/

namespace PapiPopulate

/-! ## Batch chunking

Both `createAccounts` (solo-nominators.ts lines 187-228) and
`stakeAndNominate` (lines 500-578) consume their operation list in input
order, slicing off up to `batchSize` operations per iteration of the outer
`while` loop and submitting each slice as one batch.  `chunkListAux` is that
loop with an explicit fuel argument; since every iteration consumes at least
one operation, fuel `l.length` always suffices (`chunkList`).  The fuel-0
branch is unreachable for nonempty input with fuel = length; the source loops
require `batchSize ≥ 1` (a batch size of 0 is coerced to the default by
`batchSize || 1000` before the loop runs). -/

def chunkListAux {α : Type} (batchSize : Nat) : Nat → List α → List (List α)
  | _, [] => []
  | 0, l => [l]
  | Nat.succ fuel, a :: rest =>
      (a :: rest.take (batchSize - 1)) ::
        chunkListAux batchSize fuel (rest.drop (batchSize - 1))

def chunkList {α : Type} (batchSize : Nat) (l : List α) : List (List α) :=
  chunkListAux batchSize l.length l

/-! ## Validator assignment (`stakeAndNominate`, solo-nominators.ts 452-476)

The inner `for` loop (lines 464-470) collects, for one nominator, the
validators at indices `(cursor + j) % V` for `j < validatorsPerNominator`
and `j < V`; the `if (validator)` guard is the `Option` filter.  The outer
`for` loop (lines 458-476) threads `currentValidatorIndex`, advancing it by
`validatorsPerNominator` modulo `V` after every account, regardless of what
later happens to that account's transaction. -/

def selectValidators (allValidators : List Nat) (validatorsPerNominator cursor : Nat) :
    List Nat :=
  (List.range (min validatorsPerNominator allValidators.length)).filterMap
    (fun j => allValidators[(cursor + j) % allValidators.length]?)

def assignLoop (allValidators : List Nat) (validatorsPerNominator : Nat) :
    List Nat → Nat → List (Nat × List Nat) × Nat
  | [], cursor => ([], cursor)
  | accountIndex :: rest, cursor =>
      let selected := selectValidators allValidators validatorsPerNominator cursor
      let next := (cursor + validatorsPerNominator) % allValidators.length
      let r := assignLoop allValidators validatorsPerNominator rest next
      ((accountIndex, selected) :: r.1, r.2)

/-- Spec-side description (claim C1): the contiguous window of the validator
set of length `min P V` that starts at index `cursor % V` and wraps modulo
`V`.  Compared against the code-side `selectValidators` in the C1 theorem. -/
def specWindow (validatorSet : List Nat) (validatorsPerNominator cursor : Nat) : List Nat :=
  (List.range (min validatorsPerNominator validatorSet.length)).map
    (fun j => validatorSet.getD ((cursor + j) % validatorSet.length) 0)

/-- Lookup emulating `validatorAssignments.get(accountIndex) || []` on the
JS `Map`: last write wins, missing key gives the empty list. -/
def mapGetLast (entries : List (Nat × List Nat)) (key : Nat) : List Nat :=
  match (entries.filter (fun p => p.1 == key)).getLast? with
  | some p => p.2
  | none => []

structure StakeRunResult where
  stakedCount : Nat
  skippedCount : Nat
  nextValidatorIndex : Nat
deriving DecidableEq, Repr

/-- `stakeAndNominate` (solo-nominators.ts 394-720) as a function of the
on-chain inputs.  Validators are identified by `Nat` keys; `bonded` and
`nominator` give the results of the `Staking.Ledger` / `Staking.Nominators`
existence queries (consulted only when `skipCheckAccount` is false, lines
511-525).  The first component is the returned summary (`none` models the
early `return` on an empty validator set, lines 442-445); the second
component is the list of submitted batches, each batch entry being
`(accountIndex, bondValue, nominateTargets)`.  In dry-run mode no batch is
submitted (lines 582-585). -/
def stakeAndNominateRun (validators : List Nat)
    (validatorsPerNominator validatorStartIndex : Nat)
    (createdAccountIndices : List Nat) (stakeAmounts : Nat → Nat)
    (stakeBatchSize : Nat) (skipCheckAccount : Bool)
    (bonded nominator : Nat → Bool) (isDryRun : Bool) :
    Option StakeRunResult × List (List (Nat × Nat × List Nat)) :=
  if validators.length = 0 then (none, [])
  else
    let asg := assignLoop validators validatorsPerNominator
      createdAccountIndices validatorStartIndex
    let eligible := fun a =>
      if skipCheckAccount then true else !(bonded a) && !(nominator a)
    let txs := (createdAccountIndices.filter eligible).filterMap (fun a =>
      let w := mapGetLast asg.1 a
      if w.isEmpty then none else some (a, stakeAmounts a, w))
    (some { stakedCount := txs.length,
            skippedCount :=
              (createdAccountIndices.filter (fun a => !(eligible a))).length,
            nextValidatorIndex := asg.2 },
     if isDryRun then [] else chunkList stakeBatchSize txs)

/-! ## Account existence scanner (`createAccounts`, solo-nominators.ts 55-174)

A probe of one derived address either answers with the account's provider
count or fails (query threw, or hit the 10-second per-account race timeout,
lines 108-116).  The `catch` branch (lines 124-127) classifies a failed
probe as "needs creation", exactly like a zero provider count (line 122). -/

inductive ProbeOutcome
  | ok (providers : Nat)
  | failure (msg : String)

def classifyProbe : ProbeOutcome → Bool
  | ProbeOutcome.ok providers => providers == 0
  | ProbeOutcome.failure _ => true

structure ScanState where
  available : List Nat
  skipped : Nat
  checked : Nat
  current : Nat
deriving DecidableEq, Repr

/-- One batch of indices to check (lines 86-96): from `current` up to
`batchEnd = min(current + checkBatchSize, current + (target - found) * 2)`,
additionally stopping once `maxChecks` probes have been spent. -/
def checkBatchIndices (targetCount checkBatchSize maxChecks : Nat) (st : ScanState) :
    List Nat :=
  List.range' st.current
    (min (min (st.current + checkBatchSize)
          (st.current + (targetCount - st.available.length) * 2) - st.current)
      (maxChecks - st.checked))

/-- Folding one batch of classified probe results into the scan state
(lines 132-149): `shouldCreate` indices are appended to `availableIndices`,
the others bump `skippedCount`; `totalChecked` grew by one per probed index
and `currentCheckIndex` jumps to `batchEnd`. -/
def applyCheckResults (st : ScanState) (batchEnd : Nat) (results : List (Nat × Bool)) :
    ScanState :=
  { available := st.available ++ (results.filter (fun r => r.2)).map Prod.fst,
    skipped := st.skipped + (results.filter (fun r => !r.2)).length,
    checked := st.checked + results.length,
    current := batchEnd }

/-- The scan `while` loop (lines 84-157): keep probing batches until enough
available indices are found or `maxChecks` probes were spent; an empty check
batch breaks the loop (line 98). -/
def scanLoop (probe : Nat → ProbeOutcome) (targetCount checkBatchSize maxChecks : Nat)
    (st : ScanState) : ScanState :=
  if h : st.available.length < targetCount ∧ st.checked < maxChecks then
    if hc : checkBatchIndices targetCount checkBatchSize maxChecks st = [] then st
    else
      scanLoop probe targetCount checkBatchSize maxChecks
        (applyCheckResults st
          (min (st.current + checkBatchSize)
            (st.current + (targetCount - st.available.length) * 2))
          ((checkBatchIndices targetCount checkBatchSize maxChecks st).map
            (fun i => (i, classifyProbe (probe i)))))
  else st
termination_by maxChecks - st.checked
decreasing_by
  simp only [checkBatchIndices, List.range'_eq_nil] at hc
  simp only [applyCheckResults, List.length_map, List.length_range', checkBatchIndices]
  omega

/-- The whole scan phase of `createAccounts`: with `skipCheckAccount` the
loop is bypassed and indices `startIndex .. startIndex + targetCount - 1`
are marked available without any probe (lines 59-72, `checked = 0` probes);
otherwise the scan loop runs from `startIndex` (lines 73-157). -/
def scanPhase (skipCheckAccount : Bool) (startIndex targetCount checkBatchSize maxChecks : Nat)
    (probe : Nat → ProbeOutcome) : ScanState :=
  if skipCheckAccount then
    { available := (List.range targetCount).map (fun i => startIndex + i),
      skipped := 0, checked := 0, current := startIndex }
  else
    scanLoop probe targetCount checkBatchSize maxChecks
      { available := [], skipped := 0, checked := 0, current := startIndex }

/-- The staking-phase per-account status checks (`stakeAndNominate` lines
511-525): with `skipCheckAccount`, the account is assumed neither bonded nor
nominating and no storage query is issued; otherwise the ledger and
nominator storages are both read (2 queries).  Returns
`((isBonded, isNominator), number of read queries)`. -/
def accountStakeStatus (skipCheckAccount : Bool) (ledgerExists nominatorExists : Nat → Bool)
    (accountIndex : Nat) : (Bool × Bool) × Nat :=
  if skipCheckAccount then ((false, false), 0)
  else ((ledgerExists accountIndex, nominatorExists accountIndex), 2)

/-! ## Account creation planning (`createAccounts`, solo-nominators.ts 184-362) -/

structure CreatePlan where
  stakes : List (Nat × Nat)
  fundings : List (Nat × Nat)
  createdCount : Nat
  totalStakeAmount : Nat
  totalAmount : Nat
deriving DecidableEq, Repr

/-- The creation phase of `createAccounts` applied to the available indices
found by the scan.  For the i-th created account (0-based, `createdCount`
equals `i` when its stake is computed, lines 204-211):
`variable = stakeRange * (i % 10) / 9`, `stake = minBond + baseBuffer +
variable`, `funding = stake + fixedBufferPerAccount`.  Funding transfers are
chunked into `transferBatchSize`-sized `Utility.batch_all` calls; in dry-run
mode nothing is submitted (lines 237-239). -/
def createAccountsRun (isDryRun : Bool) (availableIndices : List Nat)
    (minNominatorBond stakeRange baseBuffer fixedBufferPerAccount transferBatchSize : Nat) :
    CreatePlan × List (List (Nat × Nat)) :=
  let stakes := availableIndices.enum.map (fun p =>
    (p.2, minNominatorBond + baseBuffer + stakeRange * (p.1 % 10) / 9))
  let fundings := stakes.map (fun q => (q.1, q.2 + fixedBufferPerAccount))
  let totalStakeAmount := (stakes.map Prod.snd).sum
  let plan : CreatePlan :=
    { stakes := stakes, fundings := fundings,
      createdCount := availableIndices.length,
      totalStakeAmount := totalStakeAmount,
      totalAmount := totalStakeAmount + fixedBufferPerAccount * availableIndices.length }
  (plan, if isDryRun then [] else chunkList transferBatchSize fundings)

/-- `topupAccounts` (solo-nominators.ts 723-926) as a function of the scanned
balances `(accountIndex, freeBalance)`.  Accounts below `targetAmount` get a
top-up of the difference (lines 749-771); if nothing is needed the function
returns early (lines 780-783); in dry-run mode it returns the planned
counters with no submission (lines 785-791); otherwise the transfers are
chunked and submitted and `processedCount` sums the batch sizes (lines
793-919).  Result: `((toppedUpCount, skippedCount), submitted batches)`. -/
def topupRun (isDryRun : Bool) (balances : List (Nat × Nat)) (targetAmount batchSize : Nat) :
    (Nat × Nat) × List (List (Nat × Nat)) :=
  let accountsToTopup := balances.filterMap (fun p =>
    if p.2 < targetAmount then some (p.1, targetAmount - p.2) else none)
  if (accountsToTopup.map Prod.snd).sum = 0 then
    ((0, balances.length), [])
  else if isDryRun then
    ((accountsToTopup.length, balances.length - accountsToTopup.length), [])
  else
    ((((chunkList batchSize accountsToTopup).map List.length).sum,
      balances.length - ((chunkList batchSize accountsToTopup).map List.length).sum),
     chunkList batchSize accountsToTopup)

/-! ## Transaction-wait orchestration

The three identical waiters (`createAccounts` lines 261-358,
`stakeAndNominate` lines 619-699, `topupAccounts` lines 823-915) race a
30-second timer against the transaction-lifecycle subscription and decide
the outcome from the first decisive signal: a `txBestBlocksState` event, an
error, stream completion, or the timer.  (The `stakeAndNominate` waiter has
no `complete` handler; `completed` below models the `complete()` callbacks
of the other two.) -/

def txTimeoutMillis : Nat := 30000

/-- JavaScript `String.prototype.includes`: substring containment. -/
def containsSubstr (s pat : String) : Bool := decide (pat.data <:+: s.data)

/-- The infrastructure-error test applied to a subscription error message
(solo-nominators.ts lines 663-668, identically at 310-315 and 868-872). -/
def isInfrastructureError (errorMessage : String) : Bool :=
  containsSubstr errorMessage "ChainHead operation inaccessible" ||
  containsSubstr errorMessage "OperationInaccessibleError" ||
  containsSubstr errorMessage "connection" ||
  containsSubstr errorMessage "network"

inductive TxSignal
  | txBestBlocksState
  | errorSig (msg : String)
  | completed
  | timeout
deriving DecidableEq

inductive WaitOutcome
  | resolved (warned : Bool)
  | rejected (msg : String)
deriving DecidableEq

/-- Outcome of the per-batch wait as a function of the first decisive
signal: inclusion in a best block resolves (lines 640-655), the timer
resolves with a warning (lines 625-636), stream completion resolves (lines
344-356), an error resolves with a warning when it matches the
infrastructure substrings and rejects otherwise (lines 657-696). -/
def awaitBatchOutcome : TxSignal → WaitOutcome
  | TxSignal.txBestBlocksState => WaitOutcome.resolved false
  | TxSignal.completed => WaitOutcome.resolved false
  | TxSignal.timeout => WaitOutcome.resolved true
  | TxSignal.errorSig msg =>
      if isInfrastructureError msg then WaitOutcome.resolved true
      else WaitOutcome.rejected msg

/-! ## Batch-size configuration (solo-nominators.ts 410-411 and 31-32,
block-limits.ts 90-112)

The orchestrators take the caller-supplied batch size as-is, only replacing
an absent (or 0, falsy) value by the default: `batchSize || 1000` for
transfers, `batchSize || 100` for staking.  `validateBatchSizes` is the
separate bound check of block-limits.ts (which no caller in the repository
invokes); it flags transfer sizes outside `[1, 2000]` and staking sizes
outside `[1, 500]`. -/

def effectiveTransferBatchSize (batchSize : Option Nat) : Nat :=
  match batchSize with
  | some n => if n = 0 then 1000 else n
  | none => 1000

def effectiveStakeBatchSize (batchSize : Option Nat) : Nat :=
  match batchSize with
  | some n => if n = 0 then 100 else n
  | none => 100

def transferBatchSizeRejected (n : Nat) : Bool := n < 1 || n > 2000

def stakeBatchSizeRejected (n : Nat) : Bool := n < 1 || n > 500

/-! ## CLI dispatch and exit codes (index.ts / the modular entry point)

`mainExitCode` reproduces the `main` dispatch: each early `process.exit(1)`
on option validation, the `process.exit(1)` of the unimplemented pool mode,
and the final `main().catch(... process.exit(1))` (index.ts lines 211-214)
that turns any error escaping `main` into exit code 1.  `ExecOutcome` says
whether the selected operation's promise resolved or rejected. -/

inductive ExecOutcome
  | ok
  | raises (msg : String)

def execExit : ExecOutcome → Nat
  | ExecOutcome.ok => 0
  | ExecOutcome.raises _ => 1

structure CliFlags where
  listAccounts : Bool
  unbondGiven : Bool
  unbondRangeOk : Bool
  listPools : Bool
  removeGiven : Bool
  destroyGiven : Bool
  destroyRangeOk : Bool
  createOnly : Bool
  stakeOnly : Bool
  topupGiven : Bool
  fromGiven : Bool
  toGiven : Bool
  poolMode : Bool
deriving DecidableEq, Repr

def mainExitCode (f : CliFlags) (exec : ExecOutcome) : Nat :=
  if f.listAccounts then execExit exec
  else if f.unbondGiven then
    if f.unbondRangeOk then execExit exec else 1
  else if f.listPools then execExit exec
  else if f.removeGiven then execExit exec
  else if f.destroyGiven then
    if f.destroyRangeOk then execExit exec else 1
  else if f.createOnly && f.stakeOnly then 1
  else if f.topupGiven then
    if f.fromGiven && f.toGiven then execExit exec else 1
  else if f.poolMode then 1
  else execExit exec

/-- Spec-side predicate (claim C8, amended): the runs in which `main` exits
with code 1 before the selected operation can finish — option validation
failures and the unimplemented pool mode. -/
def cliRejects (f : CliFlags) : Bool :=
  if f.listAccounts then false
  else if f.unbondGiven then !f.unbondRangeOk
  else if f.listPools then false
  else if f.removeGiven then false
  else if f.destroyGiven then !f.destroyRangeOk
  else if f.createOnly && f.stakeOnly then true
  else if f.topupGiven then !(f.fromGiven && f.toGiven)
  else f.poolMode

/-- A plain solo-nominator run: no list/unbond/destroy/pool mode, no
conflicting flags. -/
def plainRunFlags : CliFlags :=
  { listAccounts := false, unbondGiven := false, unbondRangeOk := false,
    listPools := false, removeGiven := false, destroyGiven := false,
    destroyRangeOk := false, createOnly := false, stakeOnly := false,
    topupGiven := false, fromGiven := false, toGiven := false,
    poolMode := false }

/-! ## Helper lemmas: chunking -/

lemma chunkListAux_irrel {α : Type} (B : Nat) :
    ∀ (f₁ : Nat) (l : List α) (f₂ : Nat), l.length ≤ f₁ → l.length ≤ f₂ →
      chunkListAux B f₁ l = chunkListAux B f₂ l := by
  intro f₁
  induction f₁ with
  | zero =>
    intro l f₂ h1 _
    have hl : l = [] := List.length_eq_zero.mp (Nat.le_zero.mp h1)
    subst hl
    cases f₂ <;> rfl
  | succ f ih =>
    intro l f₂ h1 h2
    cases l with
    | nil => cases f₂ <;> rfl
    | cons a rest =>
      cases f₂ with
      | zero => simp at h2
      | succ f2 =>
        simp only [chunkListAux]
        congr 1
        apply ih
        · simp only [List.length_drop]
          simp only [List.length_cons] at h1
          omega
        · simp only [List.length_drop]
          simp only [List.length_cons] at h2
          omega

lemma chunkList_nil {α : Type} (B : Nat) : chunkList B ([] : List α) = [] := rfl

lemma chunkList_cons {α : Type} (B : Nat) (a : α) (rest : List α) :
    chunkList B (a :: rest) =
      (a :: rest.take (B - 1)) :: chunkList B (rest.drop (B - 1)) := by
  show chunkListAux B (rest.length + 1) (a :: rest) = _
  simp only [chunkListAux]
  congr 1
  exact chunkListAux_irrel B rest.length (rest.drop (B - 1)) (rest.drop (B - 1)).length
    (by simp only [List.length_drop]; omega) le_rfl

lemma chunkList_flatten {α : Type} (B : Nat) (l : List α) :
    (chunkList B l).flatten = l := by
  have H : ∀ (n : Nat) (l : List α), l.length ≤ n → (chunkList B l).flatten = l := by
    intro n
    induction n with
    | zero =>
      intro l h
      have hl : l = [] := List.length_eq_zero.mp (Nat.le_zero.mp h)
      subst hl
      rfl
    | succ n ih =>
      intro l h
      cases l with
      | nil => rfl
      | cons a rest =>
        have hn : rest.length + 1 ≤ n + 1 := by simpa using h
        rw [chunkList_cons]
        simp only [List.flatten_cons]
        rw [ih (rest.drop (B - 1)) (by simp only [List.length_drop]; omega)]
        simp [List.take_append_drop]
  exact H l.length l le_rfl

lemma chunkList_sum_length {α : Type} (B : Nat) (l : List α) :
    ((chunkList B l).map List.length).sum = l.length := by
  rw [← List.length_flatten, chunkList_flatten]

lemma chunkList_length_eq {α : Type} (B : Nat) (hB : 0 < B) (l : List α) :
    (chunkList B l).length = (l.length + B - 1) / B := by
  have H : ∀ (n : Nat) (l : List α), l.length ≤ n →
      (chunkList B l).length = (l.length + B - 1) / B := by
    intro n
    induction n with
    | zero =>
      intro l h
      have hl : l = [] := List.length_eq_zero.mp (Nat.le_zero.mp h)
      subst hl
      simp only [chunkList_nil, List.length_nil, Nat.zero_add]
      exact (Nat.div_eq_of_lt (by omega)).symm
    | succ n ih =>
      intro l h
      cases l with
      | nil =>
        simp only [chunkList_nil, List.length_nil, Nat.zero_add]
        exact (Nat.div_eq_of_lt (by omega)).symm
      | cons a rest =>
        have hn : rest.length + 1 ≤ n + 1 := by simpa using h
        rw [chunkList_cons]
        simp only [List.length_cons]
        rw [ih (rest.drop (B - 1)) (by simp only [List.length_drop]; omega)]
        simp only [List.length_drop]
        by_cases hc : B ≤ rest.length + 1
        · have h2 : rest.length - (B - 1) + B - 1 = rest.length := by omega
          have h3 : rest.length + 1 + B - 1 = rest.length + B := by omega
          rw [h2, h3, Nat.add_div_right _ hB]
        · have h2 : rest.length - (B - 1) = 0 := by omega
          have h3 : rest.length + 1 + B - 1 = rest.length + B := by omega
          rw [h2, h3, Nat.add_div_right _ hB,
            Nat.div_eq_of_lt (show 0 + B - 1 < B by omega),
            Nat.div_eq_of_lt (show rest.length < B by omega)]
  exact H l.length l le_rfl

lemma chunkList_dropLast_length {α : Type} (B : Nat) (hB : 0 < B) (l : List α) :
    ∀ c ∈ (chunkList B l).dropLast, c.length = B := by
  have H : ∀ (n : Nat) (l : List α), l.length ≤ n →
      ∀ c ∈ (chunkList B l).dropLast, c.length = B := by
    intro n
    induction n with
    | zero =>
      intro l h
      have hl : l = [] := List.length_eq_zero.mp (Nat.le_zero.mp h)
      subst hl
      simp [chunkList_nil]
    | succ n ih =>
      intro l h
      cases l with
      | nil => simp [chunkList_nil]
      | cons a rest =>
        have hn : rest.length + 1 ≤ n + 1 := by simpa using h
        rw [chunkList_cons]
        by_cases hrest : rest.drop (B - 1) = []
        · rw [hrest, chunkList_nil]
          simp
        · obtain ⟨b, t, hbt⟩ := List.exists_cons_of_ne_nil hrest
          have hcons : ∃ c0 cs, chunkList B (rest.drop (B - 1)) = c0 :: cs := by
            rw [hbt, chunkList_cons]
            exact ⟨_, _, rfl⟩
          obtain ⟨c0, cs, hcc⟩ := hcons
          rw [hcc, List.dropLast_cons₂]
          intro c hc
          rcases List.mem_cons.mp hc with hhead | htail
          · subst hhead
            have hlen : B - 1 < rest.length := by
              by_contra hcon
              exact hrest (List.drop_eq_nil_of_le (by omega))
            simp only [List.length_cons, List.length_take]
            omega
          · refine ih (rest.drop (B - 1)) (by simp only [List.length_drop]; omega) c ?_
            rw [hcc]
            exact htail
  exact H l.length l le_rfl

lemma chunkList_getLast_length {α : Type} (B : Nat) (hB : 0 < B) (l : List α) :
    ∀ c, (chunkList B l).getLast? = some c →
      c.length = if l.length % B = 0 then B else l.length % B := by
  have H : ∀ (n : Nat) (l : List α), l.length ≤ n →
      ∀ c, (chunkList B l).getLast? = some c →
        c.length = if l.length % B = 0 then B else l.length % B := by
    intro n
    induction n with
    | zero =>
      intro l h
      have hl : l = [] := List.length_eq_zero.mp (Nat.le_zero.mp h)
      subst hl
      intro c hc
      simp [chunkList_nil] at hc
    | succ n ih =>
      intro l h
      cases l with
      | nil => intro c hc; simp [chunkList_nil] at hc
      | cons a rest =>
        rw [chunkList_cons]
        by_cases hrest : rest.drop (B - 1) = []
        · rw [hrest, chunkList_nil]
          intro c hc
          have hc' : c = a :: rest.take (B - 1) := by
            simpa using hc.symm
          subst hc'
          have hle : rest.length ≤ B - 1 := List.drop_eq_nil_iff.mp hrest
          simp only [List.length_cons, List.length_take]
          rw [Nat.min_eq_right hle]
          by_cases hNB : rest.length + 1 = B
          · rw [hNB]
            simp [Nat.mod_self]
          · have hlt : rest.length + 1 < B := by omega
            rw [Nat.mod_eq_of_lt hlt, if_neg (by omega)]
        · obtain ⟨b, t, hbt⟩ := List.exists_cons_of_ne_nil hrest
          have hcons : ∃ c0 cs, chunkList B (rest.drop (B - 1)) = c0 :: cs := by
            rw [hbt, chunkList_cons]
            exact ⟨_, _, rfl⟩
          obtain ⟨c0, cs, hcc⟩ := hcons
          intro c hc
          rw [hcc, List.getLast?_cons_cons, ← hcc] at hc
          have hlenr : B - 1 < rest.length := by
            by_contra hcon
            exact hrest (List.drop_eq_nil_of_le (by omega))
          have hn : rest.length + 1 ≤ n + 1 := by simpa using h
          have hlen := ih (rest.drop (B - 1))
            (by simp only [List.length_drop]; omega) c hc
          have hd : rest.length - (B - 1) = rest.length + 1 - B := by omega
          have hmod : (rest.length + 1 - B) % B = (rest.length + 1) % B := by
            have hN : B ≤ rest.length + 1 := by omega
            conv_rhs => rw [← Nat.sub_add_cancel hN]
            rw [Nat.add_mod_right]
          rw [List.length_drop, hd, hmod] at hlen
          simpa using hlen
  exact H l.length l le_rfl

lemma chunkList_eq_single {α : Type} (B : Nat) (l : List α) (h1 : l ≠ [])
    (h2 : l.length ≤ B) : chunkList B l = [l] := by
  cases l with
  | nil => exact absurd rfl h1
  | cons a rest =>
    rw [chunkList_cons]
    have hd : rest.drop (B - 1) = [] := by
      apply List.drop_eq_nil_of_le
      simp only [List.length_cons] at h2
      omega
    rw [hd, chunkList_nil]
    have ht : rest.take (B - 1) = rest := by
      apply List.take_of_length_le
      simp only [List.length_cons] at h2
      omega
    rw [ht]

/-! ## Helper lemmas: validator assignment -/

lemma filterMap_full {β γ : Type} (f : β → Option γ) (g : β → γ) :
    ∀ l : List β, (∀ b ∈ l, f b = some (g b)) → l.filterMap f = l.map g := by
  intro l
  induction l with
  | nil => intro _; rfl
  | cons a t ih =>
    intro h
    rw [List.filterMap_cons, h a (List.mem_cons_self a t), List.map_cons,
      ih (fun b hb => h b (List.mem_cons_of_mem a hb))]

lemma selectValidators_eq_specWindow (vs : List Nat) (P c : Nat) (hV : vs ≠ []) :
    selectValidators vs P c = specWindow vs P c := by
  have hlen : 0 < vs.length := List.length_pos.mpr hV
  unfold selectValidators specWindow
  apply filterMap_full
  intro j _
  have hj : (c + j) % vs.length < vs.length := Nat.mod_lt _ hlen
  rw [List.getElem?_eq_getElem hj, List.getD_eq_getElem?_getD,
    List.getElem?_eq_getElem hj]
  rfl

lemma specWindow_length (vs : List Nat) (P c : Nat) :
    (specWindow vs P c).length = min P vs.length := by
  simp [specWindow]

lemma selectValidators_mod_add (vs : List Nat) (P c d : Nat) :
    selectValidators vs P (c % vs.length + d) = selectValidators vs P (c + d) := by
  unfold selectValidators
  simp only [Nat.add_assoc, Nat.mod_add_mod]

lemma assignLoop_fst (vs : List Nat) (P : Nat) :
    ∀ (accounts : List Nat) (S : Nat),
      ((assignLoop vs P accounts S).1).map Prod.fst = accounts := by
  intro accounts
  induction accounts with
  | nil => intro S; rfl
  | cons a t ih =>
    intro S
    simp only [assignLoop, List.map_cons]
    rw [ih]

lemma assignLoop_snd_map (vs : List Nat) (P : Nat) :
    ∀ (accounts : List Nat) (S : Nat),
      ((assignLoop vs P accounts S).1).map Prod.snd
        = (List.range accounts.length).map (fun k => selectValidators vs P (S + k * P)) := by
  intro accounts
  induction accounts with
  | nil => intro S; rfl
  | cons a t ih =>
    intro S
    simp only [assignLoop, List.map_cons, List.length_cons]
    rw [List.range_succ_eq_map, List.map_cons, List.map_map]
    congr 1
    · simp
    · rw [ih ((S + P) % vs.length)]
      refine List.map_congr_left (fun k _ => ?_)
      show selectValidators vs P ((S + P) % vs.length + k * P)
        = selectValidators vs P (S + Nat.succ k * P)
      rw [selectValidators_mod_add]
      congr 1
      rw [Nat.succ_eq_add_one]
      ring

lemma assignLoop_cursor (vs : List Nat) (P : Nat) :
    ∀ (accounts : List Nat) (S : Nat), accounts ≠ [] →
      (assignLoop vs P accounts S).2 = (S + accounts.length * P) % vs.length := by
  intro accounts
  induction accounts with
  | nil => intro S h; exact absurd rfl h
  | cons a t ih =>
    intro S _
    by_cases ht : t = []
    · subst ht
      simp [assignLoop]
    · simp only [assignLoop, List.length_cons]
      rw [ih _ ht, Nat.mod_add_mod]
      congr 1
      ring

/-! ## Helper lemmas: scan loop -/

lemma scanLoop_congr (p q : Nat → ProbeOutcome)
    (h : ∀ i, classifyProbe (p i) = classifyProbe (q i))
    (targetCount checkBatchSize maxChecks : Nat) :
    ∀ st : ScanState, scanLoop p targetCount checkBatchSize maxChecks st
      = scanLoop q targetCount checkBatchSize maxChecks st := by
  have key : ∀ (n : Nat) (st : ScanState), maxChecks - st.checked ≤ n →
      scanLoop p targetCount checkBatchSize maxChecks st
        = scanLoop q targetCount checkBatchSize maxChecks st := by
    intro n
    induction n with
    | zero =>
      intro st hn
      have hcond : ¬ (st.available.length < targetCount ∧ st.checked < maxChecks) := by
        omega
      rw [scanLoop]
      conv_rhs => rw [scanLoop]
      simp [hcond]
    | succ n ih =>
      intro st hn
      rw [scanLoop]
      conv_rhs => rw [scanLoop]
      by_cases hcond : st.available.length < targetCount ∧ st.checked < maxChecks
      · by_cases hc : checkBatchIndices targetCount checkBatchSize maxChecks st = []
        · simp [hcond, hc]
        · have hmap : (checkBatchIndices targetCount checkBatchSize maxChecks st).map
              (fun i => (i, classifyProbe (p i)))
              = (checkBatchIndices targetCount checkBatchSize maxChecks st).map
                (fun i => (i, classifyProbe (q i))) :=
            List.map_congr_left (fun i _ => by rw [h i])
          simp only [hcond, and_self, dite_true, hc, dite_false, hmap]
          apply ih
          have hlen : (checkBatchIndices targetCount checkBatchSize maxChecks st).length ≠ 0 := by
            intro h0
            exact hc (List.length_eq_zero.mp h0)
          simp only [checkBatchIndices, List.length_range'] at hlen
          simp only [applyCheckResults, List.length_map, checkBatchIndices,
            List.length_range']
          omega
      · simp [hcond]
  intro st
  exact key (maxChecks - st.checked) st le_rfl

/-! ## Claim theorems -/

/-- C1 (amended): for V > 0, P ≥ 1 is not even needed, and at least one
nominator processed (K ≥ 1), the validator-assignment precomputation of
`stakeAndNominate` is transaction-outcome independent (it is a pure function
of the validator set, P, S and the account list), the returned
`nextValidatorIndex` equals (S + K·P) mod V, the k-th processed nominator's
assigned list is the contiguous window of the validator set starting at its
cursor (S + k·P), wrapping modulo V, and every window has length min(P, V).
For K = 0 the cursor is returned unchanged as S (not reduced mod V), which
is the corrected part of the claim. -/
theorem stakeAndNominate_assignment_spec
    (vs : List Nat) (P S : Nat) (accounts : List Nat) (amt : Nat → Nat) (B : Nat)
    (skip : Bool) (bonded nominator : Nat → Bool) (dry : Bool)
    (hV : vs ≠ []) (hK : accounts ≠ []) :
    ((stakeAndNominateRun vs P S accounts amt B skip bonded nominator dry).1).map
        (fun r => r.nextValidatorIndex) = some ((S + accounts.length * P) % vs.length) ∧
    ((assignLoop vs P accounts S).1).map Prod.fst = accounts ∧
    ((assignLoop vs P accounts S).1).map Prod.snd
      = (List.range accounts.length).map (fun k => specWindow vs P (S + k * P)) ∧
    (∀ k, (specWindow vs P (S + k * P)).length = min P vs.length) := by
  have hv0 : ¬ (vs.length = 0) := fun h0 => hV (List.length_eq_zero.mp h0)
  refine ⟨?_, assignLoop_fst vs P accounts S, ?_, fun k => specWindow_length vs P _⟩
  · simp only [stakeAndNominateRun, hv0, if_false, Option.map_some']
    rw [assignLoop_cursor vs P accounts S hK]
  · rw [assignLoop_snd_map vs P accounts S]
    exact List.map_congr_left (fun k _ => selectValidators_eq_specWindow vs P _ hV)

/-- Witness for C1 at V = 3 validators, P = 2, S = 1, accounts [4, 5]:
the returned cursor is (1 + 2·2) mod 3 = 2 and both windows have length
min(2, 3) = 2. -/
theorem stakeAndNominate_assignment_witness :
    ([10, 20, 30] : List Nat) ≠ [] ∧ ([4, 5] : List Nat) ≠ [] ∧
    (((stakeAndNominateRun [10, 20, 30] 2 1 [4, 5] (fun _ => 7) 100 true
          (fun _ => false) (fun _ => false) false).1).map
        (fun r => r.nextValidatorIndex) = some ((1 + [4, 5].length * 2) % [10, 20, 30].length) ∧
      ((assignLoop [10, 20, 30] 2 [4, 5] 1).1).map Prod.fst = [4, 5] ∧
      ((assignLoop [10, 20, 30] 2 [4, 5] 1).1).map Prod.snd
        = (List.range [4, 5].length).map (fun k => specWindow [10, 20, 30] 2 (1 + k * 2)) ∧
      (∀ k, (specWindow [10, 20, 30] 2 (1 + k * 2)).length = min 2 [10, 20, 30].length)) :=
  ⟨by decide, by decide,
   stakeAndNominate_assignment_spec [10, 20, 30] 2 1 [4, 5] (fun _ => 7) 100 true
     (fun _ => false) (fun _ => false) false (by decide) (by decide)⟩

/-- Counterexample to C1 as stated: with V = 1 validator, P = 1, starting
cursor S = 3 and an empty account list (K = 0, reachable via
`--stake-only --nominators 0 --validator-start-index 3`), `stakeAndNominate`
returns `nextValidatorIndex = 3`, but the claimed formula gives
(3 + 0·1) mod 1 = 0 ≠ 3. -/
theorem stakeAndNominate_cursor_counterexample :
    ((stakeAndNominateRun [7] 1 3 [] (fun _ => 0) 100 true
          (fun _ => false) (fun _ => false) false).1).map
        (fun r => r.nextValidatorIndex) = some 3 ∧
      (3 + 0 * 1) % 1 = 0 ∧ (3 : Nat) ≠ 0 :=
  ⟨rfl, rfl, by decide⟩

/-- C2: for any operation list and batch size B > 0, the chunking performed
by the batch orchestrators produces exactly ceil(N/B) batches whose
concatenation is the input list (covering every operation exactly once, in
input order); every batch before the last has size B and the last has size
N mod B (or B when B divides N). -/
theorem batch_partition_spec {α : Type} (B : Nat) (hB : 0 < B) (ops : List α) :
    (chunkList B ops).length = (ops.length + B - 1) / B ∧
    (chunkList B ops).flatten = ops ∧
    (∀ c ∈ (chunkList B ops).dropLast, c.length = B) ∧
    (∀ c, (chunkList B ops).getLast? = some c →
      c.length = if ops.length % B = 0 then B else ops.length % B) :=
  ⟨chunkList_length_eq B hB ops, chunkList_flatten B ops,
   chunkList_dropLast_length B hB ops, chunkList_getLast_length B hB ops⟩

/-- Witness for C2 at B = 3 and a 7-element list: 3 batches, sizes 3, 3, 1. -/
theorem batch_partition_witness :
    (0 : Nat) < 3 ∧
      ((chunkList 3 [10, 11, 12, 13, 14, 15, 16]).length
          = ([10, 11, 12, 13, 14, 15, 16].length + 3 - 1) / 3 ∧
        (chunkList 3 [10, 11, 12, 13, 14, 15, 16]).flatten = [10, 11, 12, 13, 14, 15, 16] ∧
        (∀ c ∈ (chunkList 3 [10, 11, 12, 13, 14, 15, 16]).dropLast, c.length = 3) ∧
        (∀ c, (chunkList 3 [10, 11, 12, 13, 14, 15, 16]).getLast? = some c →
          c.length = if [10, 11, 12, 13, 14, 15, 16].length % 3 = 0 then 3
            else [10, 11, 12, 13, 14, 15, 16].length % 3)) :=
  ⟨by decide, batch_partition_spec 3 (by decide) [10, 11, 12, 13, 14, 15, 16]⟩

/-- C3: with an empty on-chain validator set, `stakeAndNominate` returns
early (`none`: no summary counters are produced, no nominator account is
processed) and submits zero transactions (empty batch list), for every
other input. -/
theorem stakeAndNominate_no_validators (validators : List Nat) (P S : Nat)
    (accounts : List Nat) (amt : Nat → Nat) (B : Nat) (skip : Bool)
    (bonded nominator : Nat → Bool) (dry : Bool)
    (hV : validators.length = 0) :
    stakeAndNominateRun validators P S accounts amt B skip bonded nominator dry
      = (none, []) := by
  have h : validators = [] := List.length_eq_zero.mp hV
  subst h
  rfl

/-- Witness for C3: an empty validator list with three pending accounts. -/
theorem stakeAndNominate_no_validators_witness :
    ([] : List Nat).length = 0 ∧
      stakeAndNominateRun [] 16 0 [1, 2, 3] (fun _ => 100) 100 true
        (fun _ => false) (fun _ => false) false = (none, []) :=
  ⟨rfl, stakeAndNominate_no_validators [] 16 0 [1, 2, 3] (fun _ => 100) 100 true
    (fun _ => false) (fun _ => false) false rfl⟩

/-- C4: when the 30-second timer (the code's fixed 30000 ms constant) fires
before any terminal subscription signal, the wait resolves with a logged
warning (`resolved true`, "timeout, but may have succeeded") and never
rejects, so the orchestrator continues the run. -/
theorem timeout_resolves_without_error :
    awaitBatchOutcome TxSignal.timeout = WaitOutcome.resolved true ∧
    (∀ msg, awaitBatchOutcome TxSignal.timeout ≠ WaitOutcome.rejected msg) ∧
    txTimeoutMillis = 30000 :=
  ⟨rfl, fun _ h => WaitOutcome.noConfusion h, rfl⟩

/-- C5: a subscription error resolves the wait as a non-fatal warning
exactly when its message contains one of the four infrastructure substrings
("ChainHead operation inaccessible", "OperationInaccessibleError",
"connection", "network"); every other error message rejects the wait,
surfacing the batch failure. -/
theorem infra_error_classification (msg : String) :
    awaitBatchOutcome (TxSignal.errorSig msg)
      = (if isInfrastructureError msg then WaitOutcome.resolved true
         else WaitOutcome.rejected msg) ∧
    (isInfrastructureError msg = true ↔
      ("ChainHead operation inaccessible".data <:+: msg.data ∨
       "OperationInaccessibleError".data <:+: msg.data ∨
       "connection".data <:+: msg.data ∨
       "network".data <:+: msg.data)) := by
  constructor
  · rfl
  · simp [isInfrastructureError, containsSubstr, Bool.or_eq_true, decide_eq_true_eq,
      or_assoc]

/-- C6: with `--skip-check-account`, the scan phase marks exactly the
indices `startIndex .. startIndex + targetCount - 1` as available, performs
zero existence probes (`checked = 0` and the result does not depend on the
probe at all), and the staking phase assumes every account is neither bonded
nor nominating while issuing zero storage reads. -/
theorem skipCheckAccount_spec (startIndex targetCount checkBatchSize maxChecks : Nat)
    (p q : Nat → ProbeOutcome) (ledgerExists nominatorExists : Nat → Bool) (a : Nat) :
    (scanPhase true startIndex targetCount checkBatchSize maxChecks p).available
        = List.range' startIndex targetCount ∧
    (scanPhase true startIndex targetCount checkBatchSize maxChecks p).checked = 0 ∧
    scanPhase true startIndex targetCount checkBatchSize maxChecks p
      = scanPhase true startIndex targetCount checkBatchSize maxChecks q ∧
    accountStakeStatus true ledgerExists nominatorExists a = ((false, false), 0) := by
  refine ⟨?_, rfl, rfl, rfl⟩
  simp [scanPhase, List.range'_eq_map_range]

/-- C7: for each of the three operations, running with `--dry-run` yields
exactly the planning output (stake amounts, funding amounts, counters,
assignment cursor) of a non-dry run on the same chain state, while the list
of submitted write batches is empty. -/
theorem dryRun_same_plan_zero_writes
    (available : List Nat) (minBond stakeRange baseBuffer fixedBuffer tB : Nat)
    (validators : List Nat) (P S sB : Nat) (accounts : List Nat) (amt : Nat → Nat)
    (skip : Bool) (bonded nominator : Nat → Bool)
    (balances : List (Nat × Nat)) (target topB : Nat) :
    (createAccountsRun true available minBond stakeRange baseBuffer fixedBuffer tB).1
      = (createAccountsRun false available minBond stakeRange baseBuffer fixedBuffer tB).1 ∧
    (createAccountsRun true available minBond stakeRange baseBuffer fixedBuffer tB).2 = [] ∧
    (stakeAndNominateRun validators P S accounts amt sB skip bonded nominator true).1
      = (stakeAndNominateRun validators P S accounts amt sB skip bonded nominator false).1 ∧
    (stakeAndNominateRun validators P S accounts amt sB skip bonded nominator true).2 = [] ∧
    (topupRun true balances target topB).1 = (topupRun false balances target topB).1 ∧
    (topupRun true balances target topB).2 = [] := by
  refine ⟨rfl, rfl, ?_, ?_, ?_, ?_⟩
  · by_cases hv : validators.length = 0 <;> simp [stakeAndNominateRun, hv]
  · by_cases hv : validators.length = 0 <;> simp [stakeAndNominateRun, hv]
  · simp only [topupRun]
    by_cases h0 : ((balances.filterMap (fun p =>
        if p.2 < target then some (p.1, target - p.2) else none)).map Prod.snd).sum = 0
    · simp [h0]
    · simp [h0, chunkList_sum_length]
  · simp only [topupRun]
    by_cases h0 : ((balances.filterMap (fun p =>
        if p.2 < target then some (p.1, target - p.2) else none)).map Prod.snd).sum = 0
    · simp [h0]
    · simp [h0]

/-- Counterexample to C8 as stated: in a plain solo-nominator run with no
validation error, an error that escapes `main` (e.g. a rejected batch
transaction) is logged as "Fatal error" by `main().catch` and the process
exits with code 1, not 0. -/
theorem exitCode_counterexample :
    mainExitCode plainRunFlags (ExecOutcome.raises "staking ledger query failed") = 1 ∧
    mainExitCode plainRunFlags (ExecOutcome.raises "staking ledger query failed") ≠ 0 :=
  ⟨rfl, by decide⟩

/-- C8 (amended): the process exits 1 on CLI validation failures and the
unimplemented pool mode (`cliRejects`), and also whenever an error escapes
`main` during execution (it is logged as fatal and `main().catch` calls
`process.exit(1)`); it exits 0 exactly when the run is not rejected up
front and the selected operation's promise resolves (internally caught
errors included). -/
theorem mainExitCode_spec (f : CliFlags) (exec : ExecOutcome) :
    mainExitCode f exec = (if cliRejects f then 1 else execExit exec) ∧
    (∀ msg, mainExitCode f (ExecOutcome.raises msg) = 1) ∧
    (mainExitCode f ExecOutcome.ok = if cliRejects f then 1 else 0) := by
  have key : ∀ e : ExecOutcome, mainExitCode f e = if cliRejects f then 1 else execExit e := by
    intro e
    unfold mainExitCode cliRejects
    rcases f with ⟨la, ug, uo, lp, rg, dg, dro, co, so, tg, fg, tog, pm⟩
    simp only
    cases la <;> cases ug <;> cases uo <;> cases lp <;> cases rg <;> cases dg <;>
      cases dro <;> cases co <;> cases so <;> cases tg <;> cases fg <;> cases tog <;>
      cases pm <;> simp
  refine ⟨key exec, fun msg => ?_, ?_⟩
  · rw [key (ExecOutcome.raises msg)]
    by_cases hr : cliRejects f <;> simp [hr, execExit]
  · rw [key ExecOutcome.ok]
    rfl

/-- C9 (the code contradicts its own CLI documentation): the orchestrators
use the caller-supplied batch size unclamped (`batchSize || default`), so
`--transfer-batch 2000` yields a single batch of 2000 > 1500 transfers and
`--stake-batch 500` a single batch of 500 > 250 staking operations, although
the option help text documents "max: 1500" / "max: 250"; even the (never
invoked) `validateBatchSizes` bound check accepts both values. -/
theorem batch_size_bound_violated :
    effectiveTransferBatchSize (some 2000) = 2000 ∧
    chunkList 2000 (List.range 2000) = [List.range 2000] ∧
    (List.range 2000).length = 2000 ∧ ¬ ((2000 : Nat) ≤ 1500) ∧
    effectiveStakeBatchSize (some 500) = 500 ∧
    chunkList 500 (List.range 500) = [List.range 500] ∧
    (List.range 500).length = 500 ∧ ¬ ((500 : Nat) ≤ 250) ∧
    transferBatchSizeRejected 2000 = false ∧
    stakeBatchSizeRejected 500 = false := by
  refine ⟨rfl, ?_, by simp, by decide, rfl, ?_, by simp, by decide, rfl, rfl⟩
  · exact chunkList_eq_single 2000 (List.range 2000)
      (by simp [List.range_eq_nil]) (by simp)
  · exact chunkList_eq_single 500 (List.range 500)
      (by simp [List.range_eq_nil]) (by simp)

/-- C10: a probe that throws or times out is classified exactly like a probe
answering with provider count 0 — `shouldCreate = true`, so the index is
appended to the available (fundable) indices — and the scan loop's outcome
only depends on probes through this classification, so it continues
identically instead of aborting: two probe functions that classify alike
yield the same scan state. -/
theorem probe_failure_marked_available (p q : Nat → ProbeOutcome)
    (h : ∀ i, classifyProbe (p i) = classifyProbe (q i))
    (targetCount checkBatchSize maxChecks : Nat) (st : ScanState) :
    (∀ m, classifyProbe (ProbeOutcome.failure m) = true) ∧
    classifyProbe (ProbeOutcome.ok 0) = true ∧
    scanLoop p targetCount checkBatchSize maxChecks st
      = scanLoop q targetCount checkBatchSize maxChecks st :=
  ⟨fun _ => rfl, rfl, scanLoop_congr p q h targetCount checkBatchSize maxChecks st⟩

/-- Witness for C10: a probe that always fails (as after a query timeout)
drives the scan exactly like a probe always answering zero providers. -/
theorem probe_failure_marked_available_witness :
    (∀ i : Nat, classifyProbe ((fun _ => ProbeOutcome.failure "Account query timeout after 10s") i)
        = classifyProbe ((fun _ => ProbeOutcome.ok 0) i)) ∧
    ((∀ m, classifyProbe (ProbeOutcome.failure m) = true) ∧
      classifyProbe (ProbeOutcome.ok 0) = true ∧
      scanLoop (fun _ => ProbeOutcome.failure "Account query timeout after 10s") 5 3 100
          { available := [], skipped := 0, checked := 0, current := 1 }
        = scanLoop (fun _ => ProbeOutcome.ok 0) 5 3 100
          { available := [], skipped := 0, checked := 0, current := 1 }) :=
  ⟨fun _ => rfl,
   probe_failure_marked_available (fun _ => ProbeOutcome.failure "Account query timeout after 10s")
     (fun _ => ProbeOutcome.ok 0) (fun _ => rfl) 5 3 100
     { available := [], skipped := 0, checked := 0, current := 1 }⟩

end PapiPopulate
